import Mathlib

/-!
BadTooth process-instrumentation engine: a shallow embedding of
`backend/memory.py` and `backend/kernel32.py`.

Target-process memory is modelled as a total byte map `Nat → Nat`; the
patch and hook registries (Python dictionaries keyed by caller-chosen
string names) as `String → Option _` maps.  Platform primitives that can
fail are passed in as oracles (the `VirtualAllocEx` result, the
`VirtualQueryEx` query function, the snapshot first/next results),
mirroring the thin wrappers of `kernel32.py`, which return `None` on
failure.  A Python exception is modelled as `Except.error` carrying the
state at the raise point.
-/

namespace BadTooth

/-- One byte per address; `readMem m a n` is a successful
`ReadProcessMemory` of the `n` bytes starting at address `a` (the failing
wrapper is modelled separately as `ReadProcessMemory` below). -/
def readMem (m : Nat → Nat) (addr n : Nat) : List Nat :=
  (List.range n).map fun i => m (addr + i)

/-- `WriteProcessMemory`: overwrite `buf.length` bytes starting at `addr`. -/
def writeMem (m : Nat → Nat) (addr : Nat) (buf : List Nat) : Nat → Nat :=
  fun a => if addr ≤ a ∧ a < addr + buf.length then buf.getD (a - addr) 0 else m a

/-- Python dict assignment `d[k] = v` (insert or replace). -/
def updateMap {α : Type} (m : String → Option α) (k : String) (v : α) :
    String → Option α :=
  fun n => if n = k then some v else m n

/-- Little-endian byte list of length `k` for the value `n`. -/
def leBytes (k n : Nat) : List Nat :=
  (List.range k).map fun i => n / 256 ^ i % 256

/-- `struct.pack("i", x)`: four little-endian bytes of the two's-complement
32-bit encoding of `x`. -/
def le32 (x : Int) : List Nat :=
  leBytes 4 (x % (2 : Int) ^ 32).toNat

/-- `struct.pack("Q", x)`: eight little-endian bytes of `x % 2^64`. -/
def le64 (x : Nat) : List Nat :=
  leBytes 8 (x % 2 ^ 64)

/-- The state of one `Process` object: target memory, the `patches` and
`hooks` dictionaries, and the net thread-suspension depth produced by
`suspend`/`resume` (each modelled as suspending/resuming every thread of
the target once, assuming the snapshot enumeration succeeds). -/
@[ext]
structure ProcState where
  mem : Nat → Nat
  patches : String → Option (Nat × List Nat)
  hooks : String → Option (Nat × List Nat × Nat)
  suspended : Nat

/-- `Process.add_patch`: read the resident bytes, overwrite them with
`instructions`, record `(address, old_data)` under `patch_name`.  No
duplicate-name check is performed; an existing entry is replaced. -/
def add_patch (s : ProcState) (patch_name : String) (address : Nat)
    (instructions : List Nat) : ProcState :=
  let old_data := readMem s.mem address instructions.length
  { s with
    mem := writeMem s.mem address instructions
    patches := updateMap s.patches patch_name (address, old_data) }

/-- `Process.toggle_patch`: look the patch up (a missing key raises
`KeyError`, modelled as `none`), read the currently resident bytes, write
the stored counterpart bytes back, and store the previously resident
bytes in their place. -/
def toggle_patch (s : ProcState) (patch_name : String) : Option ProcState :=
  match s.patches patch_name with
  | none => none
  | some (address, old_data) =>
    let patch_instructions := readMem s.mem address old_data.length
    some
      { s with
        mem := writeMem s.mem address old_data
        patches := updateMap s.patches patch_name (address, patch_instructions) }

/-- `toggle_patch` iterated `n` times (stopping with `none` on a missing key). -/
def toggleN : ProcState → String → Nat → Option ProcState
  | s, _, 0 => some s
  | s, patch_name, n + 1 =>
    match toggle_patch s patch_name with
    | none => none
    | some s1 => toggleN s1 patch_name n

/-- The platform facts `add_hook`/`detour_hook` consult: the answer of
`IsWow64Process` (true on a 32-bit target) and the `VirtualAllocEx`
wrapper, which returns the chosen base address or `none` on failure. -/
structure HookEnv where
  is32 : Bool
  alloc : Nat → Option Nat

/-- `is_process_32bit(handle)` = `kernel32.IsWow64Process(handle)`. -/
def is_process_32bit (env : HookEnv) : Bool :=
  env.is32

/-- `Process.detour_hook`: build the forward redirect (near `E9` jump with
`target_address - hook_address - 5` displacement on a 32-bit target, far
`FF 25 00 00 00 00` + absolute `target_address` otherwise), pad with `0x90`
when `instr_length` exceeds the redirect size, save the `instr_length`
resident bytes, and write the redirect at `hook_address`.  The
`VirtualProtectEx` protection flip has no observable effect on the byte
map and is not modelled; reads and writes are assumed to succeed. -/
def detour_hook (env : HookEnv) (s : ProcState)
    (target_address hook_address instr_length : Nat) : List Nat × ProcState :=
  if is_process_32bit env then
    let nops := if instr_length > 5 then List.replicate (instr_length - 5) 0x90 else []
    let hook_relative : Int := (target_address : Int) - (hook_address : Int) - 5
    let hook := 0xE9 :: (le32 hook_relative ++ nops)
    let old_bytes := readMem s.mem hook_address instr_length
    (old_bytes, { s with mem := writeMem s.mem hook_address hook })
  else
    let nops := if instr_length > 14 then List.replicate (instr_length - 14) 0x90 else []
    let hook := [0xFF, 0x25, 0, 0, 0, 0] ++ (le64 target_address ++ nops)
    let old_bytes := readMem s.mem hook_address instr_length
    (old_bytes, { s with mem := writeMem s.mem hook_address hook })

/-- `Process.add_hook`: suspend all threads, allocate `len(new_code)` bytes
(`alloc_rwx` is called before the trailing redirect is appended), append
the redirect back (`E9` with displacement `hook_address - (target_address
+ len(new_code))` on a 32-bit target, else `FF 25 00 00 00 00` + absolute
`hook_address + hook_instr_len`), write the combined block at the
allocated address, detour the hook site, resume all threads, and record
the hook.  When `VirtualAllocEx` fails it returns `None`, and the very
next use of `target_address` raises (on a 32-bit target the subtraction
`hook_address - (target_address + len(new_code))` is a `TypeError`, on a
64-bit target `struct.pack("Q", target_address)` is a `struct.error`),
so the error propagates with the threads still suspended: this is the
`.error` branch, carrying the state at the raise point. -/
def add_hook (env : HookEnv) (s : ProcState) (hook_name : String)
    (hook_address hook_instr_len : Nat) (new_code : List Nat) :
    Except ProcState ProcState :=
  let s1 := { s with suspended := s.suspended + 1 }
  match env.alloc new_code.length with
  | none => .error s1
  | some target_address =>
    let full_code :=
      if is_process_32bit env then
        new_code ++ 0xE9 ::
          le32 ((hook_address : Int) - ((target_address : Int) + (new_code.length : Int)))
      else
        new_code ++ [0xFF, 0x25, 0, 0, 0, 0] ++ le64 (hook_address + hook_instr_len)
    let s2 := { s1 with mem := writeMem s1.mem target_address full_code }
    let r := detour_hook env s2 target_address hook_address hook_instr_len
    let s3 := { r.2 with suspended := r.2.suspended - 1 }
    .ok { s3 with hooks := updateMap s3.hooks hook_name (hook_address, r.1, target_address) }

/-- `Process.remove_hook`: look the hook up (a missing key raises
`KeyError` before any thread is suspended), suspend all threads, write the
saved bytes back at the hook address, free the trampoline (no effect on
the byte map), resume all threads, and drop the registry entry. -/
def remove_hook (s : ProcState) (hook_name : String) : Except ProcState ProcState :=
  match s.hooks hook_name with
  | none => .error s
  | some (hook_address, old_bytes, _target_address) =>
    let s1 := { s with suspended := s.suspended + 1 }
    let s2 := { s1 with mem := writeMem s1.mem hook_address old_bytes }
    let s3 := { s2 with suspended := s2.suspended - 1 }
    .ok { s3 with hooks := fun n => if n = hook_name then none else s3.hooks n }

/-- Whether a call returned normally (`.ok`) rather than raising. -/
def isOk (r : Except ProcState ProcState) : Bool :=
  match r with
  | .ok _ => true
  | .error _ => false

/-- The final state of a call that returned normally (`d` otherwise). -/
def okStateD (r : Except ProcState ProcState) (d : ProcState) : ProcState :=
  match r with
  | .ok s => s
  | .error _ => d

/-- The suspension depth at the point a call returned or raised. -/
def suspendedOf (r : Except ProcState ProcState) : Nat :=
  match r with
  | .ok s => s.suspended
  | .error s => s.suspended

/-- A process state with zeroed memory and empty registries. -/
def s0 : ProcState :=
  { mem := fun _ => 0
    patches := fun _ => none
    hooks := fun _ => none
    suspended := 0 }

/-- A 32-bit target whose allocator always returns address 8192. -/
def env32 : HookEnv :=
  { is32 := true, alloc := fun _ => some 8192 }

/-- A 64-bit target whose allocator always returns address 8192. -/
def env64 : HookEnv :=
  { is32 := false, alloc := fun _ => some 8192 }

/-- A 32-bit target whose allocator always fails. -/
def envFail : HookEnv :=
  { is32 := true, alloc := fun _ => none }

/-- A 32-bit target whose allocator only grants requests of exactly 1 byte. -/
def envTight : HookEnv :=
  { is32 := true, alloc := fun sz => if sz = 1 then some 8192 else none }

/-- `MEMORY_BASIC_INFORMATION` as decoded by `kernel32.py` (its `Type`
field is spelled `MType`, `Type` being reserved in Lean). -/
structure MEMORY_BASIC_INFORMATION where
  BaseAddress : Nat
  RegionSize : Nat
  State : Nat
  Protect : Nat
  MType : Nat

/-- Python truthiness of an optional filter argument of
`yield_memory_regions` (`if state:` is false for both `None` and `0`). -/
def truthy : Option Nat → Bool
  | none => false
  | some v => v != 0

/-- The filter test of `yield_memory_regions`: `bState and bProtect and
bType`, where each flag compares the region field against the filter when
the filter is truthy and is `True` otherwise. -/
def regionMatches (state protect m_type : Option Nat)
    (r : MEMORY_BASIC_INFORMATION) : Bool :=
  (if truthy state then r.State == state.getD 0 else true) &&
    ((if truthy protect then r.Protect == protect.getD 0 else true) &&
      (if truthy m_type then r.MType == m_type.getD 0 else true))

/-- The `while mem_basic_info is not None` loop of `yield_memory_regions`:
yield the region when it passes the filters, advance the cursor to
`BaseAddress + RegionSize`, break past `max_address`, and re-query — a
query returning `None` (`VirtualQueryEx` failure) ends the loop silently.
`fuel` bounds the number of iterations so the walk is total. -/
def regionsLoop (query : Nat → Option MEMORY_BASIC_INFORMATION)
    (max_address : Nat) (state protect m_type : Option Nat) :
    Option MEMORY_BASIC_INFORMATION → Nat → List MEMORY_BASIC_INFORMATION
  | none, _ => []
  | some _, 0 => []
  | some r, fuel + 1 =>
    let address := r.BaseAddress + r.RegionSize
    let rest :=
      if address > max_address then []
      else regionsLoop query max_address state protect m_type (query address) fuel
    if regionMatches state protect m_type r then r :: rest else rest

/-- `Process.yield_memory_regions`, fully consumed: `query` stands for
`kernel32.VirtualQueryEx` on this process handle and `min_address` /
`max_address` come from `GetSystemInfo`.  The generator never surfaces a
query failure: the first query feeds straight into the
`while ... is not None` loop. -/
def yield_memory_regions (query : Nat → Option MEMORY_BASIC_INFORMATION)
    (min_address max_address : Nat) (state protect m_type : Option Nat)
    (fuel : Nat) : List MEMORY_BASIC_INFORMATION :=
  regionsLoop query max_address state protect m_type (query min_address) fuel

/-- Modelled from the spec: the RegionScanner of section 4.2, whose
rule "A query failure on the first call is an error" exists nowhere in
the source.  It surfaces a failure of the very first query as an error
and otherwise walks exactly as the source loop does. -/
def regionsSpecModel (query : Nat → Option MEMORY_BASIC_INFORMATION)
    (min_address max_address : Nat) (state protect m_type : Option Nat)
    (fuel : Nat) : Except Unit (List MEMORY_BASIC_INFORMATION) :=
  match query min_address with
  | none => .error ()
  | some r => .ok (regionsLoop query max_address state protect m_type (some r) fuel)

/-- `kernel32.ReadProcessMemory`: a zero-initialised buffer of `nSize`
bytes is handed to the API together with a `bytes_read` out-parameter; the
oracle `osBytes` is whatever the OS copied into the buffer's start.  On
success the whole `nSize`-byte buffer is returned — `bytes_read` is never
consulted — and on failure the wrapper returns `None`. -/
def ReadProcessMemory (success : Bool) (osBytes : List Nat) (nSize : Nat) :
    Option (List Nat) :=
  let buffer :=
    osBytes.take nSize ++ List.replicate (nSize - (osBytes.take nSize).length) 0
  if success then some buffer else none

/-- `Process.read` forwards to `kernel32.ReadProcessMemory` unchanged. -/
def proc_read (success : Bool) (osBytes : List Nat) (n_bytes : Nat) :
    Option (List Nat) :=
  ReadProcessMemory success osBytes n_bytes

/-- `THREADENTRY32` (the fields the generators' callers use). -/
structure THREADENTRY32 where
  th32ThreadID : Nat
  th32OwnerProcessID : Nat

/-- `PROCESSENTRY32` (the fields the generators' callers use). -/
structure PROCESSENTRY32 where
  th32ProcessID : Nat
  szExeFile : String

/-- `MODULEENTRY32` (the fields the generators' callers use). -/
structure MODULEENTRY32 where
  szModule : String
  modBaseAddr : Nat
  modBaseSize : Nat

/-- `kernel32.Thread32First` / `Process32First` / `Module32First`: the
populated entry on success, `None` (after printing the error) on failure. -/
def snapFirst {α : Type} (success : Bool) (entry : α) : Option α :=
  if success then some entry else none

/-- One `Thread32Next`-style call: Python passes the current entry with
`byref`, so a `None` entry raises `TypeError`; otherwise the OS either
mutates the entry to the next value (`some`) or reports exhaustion
(`none`, the call returning `False`). -/
def snapNext {α : Type} (entry : Option α) (osStep : Option α) :
    Except Unit (Option α) :=
  match entry with
  | none => .error ()
  | some _ => .ok osStep

/-- The `while Next(...)` part of a snapshot generator, fully consumed:
the entries it yields, paired with `true` when iteration ended by an
exception rather than by the OS reporting exhaustion.  `steps` is the
oracle of successive OS answers (exhausted once it runs out). -/
def snapLoop {α : Type} : Option α → List (Option α) → List α × Bool
  | entry, [] =>
    match snapNext entry none with
    | .error _ => ([], true)
    | .ok _ => ([], false)
  | entry, step :: rest =>
    match snapNext entry step with
    | .error _ => ([], true)
    | .ok none => ([], false)
    | .ok (some e) =>
      let p := snapLoop (some e) rest
      (e :: p.1, p.2)

/-- A fully consumed snapshot generator (`entry = First(...); yield entry;
while Next(...): yield entry`): the sequence of yielded values — the
unconditional first `yield`, sentinel or not, included — paired with
whether consuming it past its last element raised instead of stopping. -/
def snapshotTrace {α : Type} (first : Option α) (steps : List (Option α)) :
    List (Option α) × Bool :=
  let p := snapLoop first steps
  (first :: p.1.map some, p.2)

/-- `Process.yield_threads`, fully consumed (oracles: the `Thread32First`
outcome and the successive `Thread32Next` answers). -/
def yield_threads (firstSuccess : Bool) (entry : THREADENTRY32)
    (steps : List (Option THREADENTRY32)) : List (Option THREADENTRY32) × Bool :=
  snapshotTrace (snapFirst firstSuccess entry) steps

/-- `yield_processes`, fully consumed (oracles as for `yield_threads`). -/
def yield_processes (firstSuccess : Bool) (entry : PROCESSENTRY32)
    (steps : List (Option PROCESSENTRY32)) : List (Option PROCESSENTRY32) × Bool :=
  snapshotTrace (snapFirst firstSuccess entry) steps

/-- `Process.yield_modules`, fully consumed (oracles as for `yield_threads`). -/
def yield_modules (firstSuccess : Bool) (entry : MODULEENTRY32)
    (steps : List (Option MODULEENTRY32)) : List (Option MODULEENTRY32) × Bool :=
  snapshotTrace (snapFirst firstSuccess entry) steps

/-- A sample committed region: base 0, size 4, `MEM_COMMIT`,
`PAGE_EXECUTE_READWRITE`, `MEM_PRIVATE`. -/
def regionEx : MEMORY_BASIC_INFORMATION :=
  { BaseAddress := 0
    RegionSize := 4
    State := 0x1000
    Protect := 0x40
    MType := 0x20000 }

/-- A process state holding one registered patch named `p`. -/
def sPatch : ProcState :=
  { mem := fun _ => 0
    patches := fun n => if n = "p" then some (0, [1, 2]) else none
    hooks := fun _ => none
    suspended := 0 }

/-- A process state holding one registered patch named `p` at address 5. -/
def sPatch5 : ProcState :=
  { mem := fun _ => 0
    patches := fun n => if n = "p" then some (5, [7]) else none
    hooks := fun _ => none
    suspended := 0 }

theorem updateMap_same {α : Type} (m : String → Option α) (k : String) (v : α) :
    updateMap m k v k = some v := by
  simp [updateMap]

theorem updateMap_ne {α : Type} (m : String → Option α) (k n : String) (v : α)
    (h : n ≠ k) : updateMap m k v n = m n := by
  simp [updateMap, h]

theorem readMem_length (m : Nat → Nat) (addr n : Nat) :
    (readMem m addr n).length = n := by
  simp [readMem]

theorem readMem_getElem (m : Nat → Nat) (addr n i : Nat)
    (h : i < (readMem m addr n).length) :
    (readMem m addr n)[i] = m (addr + i) := by
  simp [readMem]

theorem readMem_congr (m m' : Nat → Nat) (addr n : Nat)
    (h : ∀ i, i < n → m (addr + i) = m' (addr + i)) :
    readMem m addr n = readMem m' addr n := by
  apply List.ext_getElem
  · simp [readMem_length]
  · intro i h1 h2
    rw [readMem_getElem _ _ _ _ h1, readMem_getElem _ _ _ _ h2]
    exact h i (by simpa [readMem_length] using h1)

/-- Reading a subrange of a just-written buffer returns the matching slice. -/
theorem readMem_writeMem_sub (m : Nat → Nat) (addr off len : Nat) (buf : List Nat)
    (h : off + len ≤ buf.length) :
    readMem (writeMem m addr buf) (addr + off) len = (buf.drop off).take len := by
  apply List.ext_getElem
  · simp [readMem_length]
    omega
  · intro i h1 h2
    have hi : i < len := by simpa [readMem_length] using h1
    rw [readMem_getElem _ _ _ _ h1]
    have hcond : addr ≤ addr + off + i ∧ addr + off + i < addr + buf.length := by
      omega
    have hlt : off + i < buf.length := by omega
    simp only [writeMem, if_pos hcond]
    have : addr + off + i - addr = off + i := by omega
    rw [this, List.getD_eq_getElem buf 0 hlt]
    simp [Nat.add_comm]

/-- Reading back exactly a just-written buffer returns it. -/
theorem readMem_writeMem_eq (m : Nat → Nat) (addr : Nat) (buf : List Nat) :
    readMem (writeMem m addr buf) addr buf.length = buf := by
  have := readMem_writeMem_sub m addr 0 buf.length buf (by omega)
  simpa using this

/-- A write to a disjoint range does not change what a read returns. -/
theorem readMem_writeMem_disjoint (m : Nat → Nat) (addr n b : Nat) (buf : List Nat)
    (h : addr + n ≤ b ∨ b + buf.length ≤ addr) :
    readMem (writeMem m b buf) addr n = readMem m addr n := by
  apply readMem_congr
  intro i hi
  have hcond : ¬ (b ≤ addr + i ∧ addr + i < b + buf.length) := by omega
  simp [writeMem, hcond]

/-- Writing back the bytes that were resident before a write undoes it. -/
theorem writeMem_write_read_cancel (m : Nat → Nat) (addr : Nat) (buf : List Nat) :
    writeMem (writeMem m addr buf) addr (readMem m addr buf.length) = m := by
  funext x
  by_cases hx : addr ≤ x ∧ x < addr + buf.length
  · have hx' : addr ≤ x ∧ x < addr + (readMem m addr buf.length).length := by
      simpa [readMem_length] using hx
    have hlt : x - addr < buf.length := by omega
    simp only [writeMem, if_pos hx']
    rw [List.getD_eq_getElem _ 0 (by simpa [readMem_length] using hlt)]
    rw [readMem_getElem _ _ _ _ (by simpa [readMem_length] using hlt)]
    congr 1
    omega
  · have hx' : ¬ (addr ≤ x ∧ x < addr + (readMem m addr buf.length).length) := by
      simpa [readMem_length] using hx
    simp [writeMem, hx', hx]

theorem le32_length (x : Int) : (le32 x).length = 4 := by
  simp [le32, leBytes]

theorem le64_length (x : Nat) : (le64 x).length = 8 := by
  simp [le64, leBytes]

/-- The conditional nop padding of `detour_hook` is a plain `replicate`
(the condition only avoids building an empty byte string). -/
theorem nops_eq (n k : Nat) :
    (if k < n then List.replicate (n - k) (0x90 : Nat) else []) =
      List.replicate (n - k) 0x90 := by
  by_cases h : k < n
  · simp [h]
  · have : n - k = 0 := by omega
    simp [h, this]

theorem toggle_toggle_eq (s : ProcState) (patch_name : String) (addr : Nat)
    (old : List Nat) (h : s.patches patch_name = some (addr, old)) :
    ∃ s1, toggle_patch s patch_name = some s1 ∧ toggle_patch s1 patch_name = some s := by
  refine ⟨{ s with
      mem := writeMem s.mem addr old
      patches := updateMap s.patches patch_name
        (addr, readMem s.mem addr old.length) }, ?_, ?_⟩
  · simp [toggle_patch, h]
  · have hlook :
        updateMap s.patches patch_name (addr, readMem s.mem addr old.length)
          patch_name = some (addr, readMem s.mem addr old.length) :=
      updateMap_same _ _ _
    simp only [toggle_patch, hlook, readMem_length, readMem_writeMem_eq]
    have hmem := writeMem_write_read_cancel s.mem addr old
    have hpat :
        updateMap (updateMap s.patches patch_name
            (addr, readMem s.mem addr old.length)) patch_name (addr, old) =
          s.patches := by
      funext x
      by_cases hx : x = patch_name
      · subst hx
        rw [updateMap_same, h]
      · rw [updateMap_ne _ _ _ _ hx, updateMap_ne _ _ _ _ hx]
    rw [hmem, hpat]

/-- C1 counterexample: with `hookAddress = 4096`, `originalInstrLength = 6`,
injected code `[0xC3]` and trampoline at 8192, the five trailing bytes of
the trampoline block are `E9` + the little-endian encoding of
`hookAddress - (trampolineAddress + len(injectedCode))` (= -4097), which
differs from the claimed displacement
`hookAddress + originalInstrLength - (trampolineAddress + len(injectedCode) + 5)`
(= -4096). -/
theorem trailing_redirect_formula_cex :
    readMem (okStateD (add_hook env32 s0 "h" 4096 6 [0xC3]) s0).mem (8192 + 1) 5 =
      0xE9 :: le32 ((4096 : Int) - ((8192 : Int) + 1)) ∧
    0xE9 :: le32 ((4096 : Int) - ((8192 : Int) + 1)) ≠
      0xE9 :: le32 ((4096 : Int) + 6 - ((8192 : Int) + 1 + 5)) := by
  constructor
  · decide
  · decide

/-- C2 counterexample: when `VirtualAllocEx` fails inside `add_hook`, the
error propagates (`isOk = false`) with the suspension depth still 1,
although it was 0 on entry — the threads stay suspended. -/
theorem add_hook_alloc_failure_leaves_suspended :
    suspendedOf (add_hook envFail s0 "h" 4096 5 [0xC3]) = 1 ∧
    isOk (add_hook envFail s0 "h" 4096 5 [0xC3]) = false ∧
    s0.suspended = 0 :=
  ⟨rfl, rfl, rfl⟩

/-- C3: the allocation request `add_hook` makes is `len(new_code)` bytes —
under an allocator that only grants 1-byte requests, installing a 1-byte
injected code succeeds, and the 6-byte block `new_code + E9 + disp` is
then written into the 1-byte allocation. -/
theorem trampoline_alloc_undersized :
    envTight.alloc 1 = some 8192 ∧
    envTight.alloc 6 = none ∧
    isOk (add_hook envTight s0 "h" 4096 5 [0xC3]) = true ∧
    readMem (okStateD (add_hook envTight s0 "h" 4096 5 [0xC3]) s0).mem 8192 6 =
      0xC3 :: 0xE9 :: le32 ((4096 : Int) - ((8192 : Int) + 1)) := by
  refine ⟨rfl, by decide, rfl, by decide⟩

/-- C4 counterexample: `add_hook` with `originalInstrLength = 2` on a
32-bit target raises no error at all and writes the redirect opcode at
the hook address. -/
theorem add_hook_short_instr_no_error :
    isOk (add_hook env32 s0 "h" 4096 2 [0xC3]) = true ∧
    (okStateD (add_hook env32 s0 "h" 4096 2 [0xC3]) s0).mem 4096 = 0xE9 ∧
    s0.mem 4096 = 0 := by
  refine ⟨rfl, by decide, rfl⟩

/-- C7 counterexample: `add_patch` under an already-registered name `p`
raises no error, overwrites the target byte, and replaces the registry
entry. -/
theorem add_patch_duplicate_overwrites :
    sPatch5.patches "p" = some (5, [7]) ∧
    (add_patch sPatch5 "p" 0 [9]).patches "p" = some (0, [0]) ∧
    sPatch5.mem 0 = 0 ∧
    (add_patch sPatch5 "p" 0 [9]).mem 0 = 9 := by
  refine ⟨by decide, by decide, rfl, by decide⟩

/-- C8 counterexample: when the very first `VirtualQueryEx` fails, the
source generator silently yields the empty sequence, while the spec's
RegionScanner (modelled as `regionsSpecModel`) surfaces an error. -/
theorem first_query_failure_silent_cex :
    yield_memory_regions (fun _ => none) 0 100 none none none 10 = [] ∧
    regionsSpecModel (fun _ => none) 0 100 none none none 10 = .error () :=
  ⟨rfl, rfl⟩

/-- C9 counterexample: when the OS copies only 2 of 4 requested bytes, the
wrapper still returns a 4-byte buffer, zero-padded — a short read is never
surfaced as a shorter result. -/
theorem read_pads_short_read_cex :
    proc_read true [0xAA, 0xBB] 4 = some [0xAA, 0xBB, 0, 0] ∧
    ([0xAA, 0xBB, 0, 0] : List Nat).length = 4 := by
  refine ⟨by decide, by decide⟩

/-- `readMem_writeMem_eq` with the read length given by a side equation. -/
theorem readMem_writeMem_of_length (m : Nat → Nat) (a : Nat) (buf : List Nat)
    (n : Nat) (h : buf.length = n) : readMem (writeMem m a buf) a n = buf := by
  subst h
  exact readMem_writeMem_eq m a buf

/-- C5: after a successful `add_hook`, the `hook_instr_len` bytes at the
hook address are the forward redirect targeting the trampoline: on a
32-bit target (length at least 5) `E9` + the little-endian signed
displacement `trampoline - hook - 5`, padded with `0x90`; on a 64-bit
target (length at least 14) `FF 25 00 00 00 00` + the 8-byte little-endian
absolute trampoline address, padded with `0x90` — exactly
`hook_instr_len` bytes in both cases. -/
theorem forward_redirect_bytes (env : HookEnv) (s : ProcState)
    (hook_name : String) (ha n : Nat) (code : List Nat) (ta : Nat)
    (s' : ProcState) (halloc : env.alloc code.length = some ta)
    (hok : add_hook env s hook_name ha n code = .ok s') :
    (env.is32 = true → 5 ≤ n →
      readMem s'.mem ha n =
        0xE9 :: (le32 ((ta : Int) - (ha : Int) - 5) ++
          List.replicate (n - 5) 0x90)) ∧
    (env.is32 = false → 14 ≤ n →
      readMem s'.mem ha n =
        [0xFF, 0x25, 0, 0, 0, 0] ++ (le64 ta ++ List.replicate (n - 14) 0x90)) := by
  constructor
  · intro h32 hn
    simp [add_hook, detour_hook, is_process_32bit, halloc, h32, nops_eq] at hok
    subst hok
    exact readMem_writeMem_of_length _ _ _ _ (by simp [le32_length]; omega)
  · intro h32 hn
    simp [add_hook, detour_hook, is_process_32bit, halloc, h32, nops_eq] at hok
    subst hok
    exact readMem_writeMem_of_length _ _ _ _ (by simp [le64_length]; omega)

/-- C5 witness: a successful 32-bit install with `hook_instr_len = 7`
leaves `E9` + displacement + two `0x90` pads at the hook address. -/
theorem forward_redirect_bytes_witness :
    readMem (okStateD (add_hook env32 s0 "h" 4096 7 [0xC3]) s0).mem 4096 7 =
      0xE9 :: (le32 ((8192 : Int) - (4096 : Int) - 5) ++
        List.replicate 2 0x90) := by
  have h := (forward_redirect_bytes env32 s0 "h" 4096 7 [0xC3] 8192
      (okStateD (add_hook env32 s0 "h" 4096 7 [0xC3]) s0) rfl rfl).1 rfl (by omega)
  simpa using h

/-- C4 amended: `add_hook` performs no minimum-length validation and no
`InstructionTooShort` error exists — with `hook_instr_len` below the
redirect's minimum encoding (5 bytes for a 32-bit target, 14 for a
64-bit one) the install still succeeds, the full minimum-size redirect is
written at the hook address (overwriting bytes past `hook_instr_len`),
and only `hook_instr_len` original bytes are saved in the registry. -/
theorem add_hook_no_min_length_check (env : HookEnv) (s : ProcState)
    (hook_name : String) (ha n : Nat) (code : List Nat) (ta : Nat)
    (halloc : env.alloc code.length = some ta)
    (hdisj : ha + 14 ≤ ta) :
    (env.is32 = true → n < 5 →
      isOk (add_hook env s hook_name ha n code) = true ∧
      ∀ s', add_hook env s hook_name ha n code = .ok s' →
        readMem s'.mem ha 5 = 0xE9 :: le32 ((ta : Int) - (ha : Int) - 5) ∧
        s'.hooks hook_name = some (ha, readMem s.mem ha n, ta)) ∧
    (env.is32 = false → n < 14 →
      isOk (add_hook env s hook_name ha n code) = true ∧
      ∀ s', add_hook env s hook_name ha n code = .ok s' →
        readMem s'.mem ha 14 = [0xFF, 0x25, 0, 0, 0, 0] ++ le64 ta ∧
        s'.hooks hook_name = some (ha, readMem s.mem ha n, ta)) := by
  constructor
  · intro h32 hn
    constructor
    · simp [isOk, add_hook, halloc]
    · intro s' hok
      simp [add_hook, detour_hook, is_process_32bit, halloc, h32, nops_eq] at hok
      subst hok
      constructor
      · have h0 : n - 5 = 0 := by omega
        rw [h0]
        simp only [List.replicate_zero, List.append_nil]
        exact readMem_writeMem_of_length _ _ _ _ (by simp [le32_length])
      · have hd : readMem (writeMem s.mem ta
            (code ++ 0xE9 :: le32 ((ha : Int) -
              ((ta : Int) + (code.length : Int))))) ha n = readMem s.mem ha n :=
          readMem_writeMem_disjoint _ _ _ _ _ (Or.inl (by omega))
        simp [updateMap_same, hd]
  · intro h32 hn
    constructor
    · simp [isOk, add_hook, halloc]
    · intro s' hok
      simp [add_hook, detour_hook, is_process_32bit, halloc, h32, nops_eq] at hok
      subst hok
      constructor
      · have h0 : n - 14 = 0 := by omega
        rw [h0]
        simp only [List.replicate_zero, List.append_nil]
        exact readMem_writeMem_of_length _ _ _ _ (by simp [le64_length])
      · have hd : readMem (writeMem s.mem ta
            (code ++ 0xFF :: 0x25 :: 0 :: 0 :: 0 :: 0 :: le64 (ha + n))) ha n =
            readMem s.mem ha n :=
          readMem_writeMem_disjoint _ _ _ _ _ (Or.inl (by omega))
        simp [updateMap_same, hd]

/-- C4 witness: the amended behaviour at a concrete too-short install
(32-bit target, `hook_instr_len = 2`): no error, and only two original
bytes saved. -/
theorem add_hook_no_min_length_check_witness :
    isOk (add_hook env32 s0 "h" 4096 2 [0xC3]) = true ∧
    (okStateD (add_hook env32 s0 "h" 4096 2 [0xC3]) s0).hooks "h" =
      some (4096, readMem s0.mem 4096 2, 8192) := by
  have h := (add_hook_no_min_length_check env32 s0 "h" 4096 2 [0xC3] 8192 rfl
      (by omega)).1 rfl (by omega)
  exact ⟨h.1, (h.2 _ rfl).2⟩

/-- C1 amended: on a 32-bit target the trailing redirect appended after
the injected code is `E9` + the little-endian signed displacement
`hook_address - (target_address + len(new_code))` — computed before the
five redirect bytes are appended and without the instruction length — so
it resolves to `hook_address + 5` (the nop padding of the forward
redirect then slides execution to `hook_address + hook_instr_len`).  It
coincides with the claimed displacement exactly when
`hook_instr_len = 5`. -/
theorem add_hook_trampoline_return_jump (env : HookEnv) (s : ProcState)
    (hook_name : String) (ha n : Nat) (code : List Nat) (ta : Nat)
    (s' : ProcState) (h32 : env.is32 = true)
    (halloc : env.alloc code.length = some ta)
    (hdisj : ha + max 5 n ≤ ta)
    (hok : add_hook env s hook_name ha n code = .ok s') :
    readMem s'.mem (ta + code.length) 5 =
      0xE9 :: le32 ((ha : Int) - ((ta : Int) + (code.length : Int))) ∧
    (ta : Int) + (code.length : Int) + 5 +
        ((ha : Int) - ((ta : Int) + (code.length : Int))) = (ha : Int) + 5 := by
  constructor
  · simp [add_hook, detour_hook, is_process_32bit, halloc, h32, nops_eq] at hok
    subst hok
    rw [readMem_writeMem_disjoint _ _ _ _ _
      (Or.inr (by simp [le32_length]; omega))]
    rw [readMem_writeMem_sub _ _ _ _ _ (by simp [le32_length])]
    rw [List.drop_left]
    have hlen5 : (0xE9 :: le32 ((ha : Int) -
        ((ta : Int) + (code.length : Int)))).length = 5 := by
      simp [le32_length]
    rw [← hlen5, List.take_length]
  · ring

/-- C1 witness: the amended trailing redirect at a concrete install
(`hookAddress = 4096`, `instrLen = 6`, code `[0xC3]`, trampoline 8192). -/
theorem add_hook_trampoline_return_jump_witness :
    readMem (okStateD (add_hook env32 s0 "h" 4096 6 [0xC3]) s0).mem 8193 5 =
      0xE9 :: le32 ((4096 : Int) - ((8192 : Int) + 1)) := by
  have h := (add_hook_trampoline_return_jump env32 s0 "h" 4096 6 [0xC3] 8192
      (okStateD (add_hook env32 s0 "h" 4096 6 [0xC3]) s0) rfl rfl (by decide) rfl).1
  simpa using h

/-- `detour_hook` never changes the suspension depth. -/
theorem detour_hook_suspended (env : HookEnv) (s : ProcState) (t h n : Nat) :
    (detour_hook env s t h n).2.suspended = s.suspended := by
  by_cases h32 : is_process_32bit env = true <;> simp [detour_hook, h32]

/-- C2 amended: `add_hook` restores the entry suspension depth on its
success path, and `remove_hook` does so on both of its paths (its only
failure, an unknown name, raises before suspending); but when the
trampoline allocation fails inside `add_hook`, the error propagates with
the threads still suspended (depth one above the entry depth). -/
theorem hook_suspend_resume_paths :
    (∀ (env : HookEnv) (s : ProcState) (hook_name : String) (ha n : Nat)
        (code : List Nat) (s' : ProcState),
        add_hook env s hook_name ha n code = .ok s' → s'.suspended = s.suspended) ∧
    (∀ (s : ProcState) (hook_name : String) (s' : ProcState),
        remove_hook s hook_name = .ok s' → s'.suspended = s.suspended) ∧
    (∀ (s : ProcState) (hook_name : String) (serr : ProcState),
        remove_hook s hook_name = .error serr → serr.suspended = s.suspended) ∧
    (∀ (env : HookEnv) (s : ProcState) (hook_name : String) (ha n : Nat)
        (code : List Nat),
        env.alloc code.length = none →
        add_hook env s hook_name ha n code =
          .error { s with suspended := s.suspended + 1 }) := by
  refine ⟨?_, ?_, ?_, ?_⟩
  · intro env s hook_name ha n code s' hok
    cases halloc : env.alloc code.length with
    | none => simp [add_hook, halloc] at hok
    | some ta =>
      simp only [add_hook, halloc] at hok
      simp only [Except.ok.injEq] at hok
      subst hok
      simp [detour_hook_suspended]
  · intro s hook_name s' hok
    cases hlook : s.hooks hook_name with
    | none => simp [remove_hook, hlook] at hok
    | some v =>
      obtain ⟨ha, ob, ta⟩ := v
      simp only [remove_hook, hlook, Except.ok.injEq] at hok
      subst hok
      simp
  · intro s hook_name serr herr
    cases hlook : s.hooks hook_name with
    | none =>
      simp only [remove_hook, hlook, Except.error.injEq] at herr
      subst herr
      rfl
    | some v =>
      obtain ⟨ha, ob, ta⟩ := v
      simp [remove_hook, hlook] at herr
  · intro env s hook_name ha n code halloc
    simp [add_hook, halloc]

/-- C2 witness: the amended facts at concrete inputs — a successful
install restores the entry depth, and an install whose allocation fails
raises with the depth still incremented. -/
theorem hook_suspend_resume_paths_witness :
    (okStateD (add_hook env32 s0 "h" 4096 5 [0xC3]) s0).suspended = s0.suspended ∧
    add_hook envFail s0 "h" 4096 5 [0xC3] =
      .error { s0 with suspended := s0.suspended + 1 } := by
  constructor
  · exact hook_suspend_resume_paths.1 env32 s0 "h" 4096 5 [0xC3] _ rfl
  · exact hook_suspend_resume_paths.2.2.2 envFail s0 "h" 4096 5 [0xC3] rfl

/-- C6: a registered patch toggled an even number of times leaves the
whole process state — the resident bytes at the patch address included —
exactly as it was when the toggling started; in particular two
consecutive toggles are an identity. -/
theorem toggle_patch_even_identity (s : ProcState) (patch_name : String)
    (addr : Nat) (old : List Nat)
    (h : s.patches patch_name = some (addr, old)) :
    ∀ k, toggleN s patch_name (2 * k) = some s := by
  intro k
  induction k with
  | zero => simp [toggleN]
  | succ k ih =>
    obtain ⟨s1, h1, h2⟩ := toggle_toggle_eq s patch_name addr old h
    have hrw : 2 * (k + 1) = 2 * k + 1 + 1 := by ring
    rw [hrw]
    simp only [toggleN, h1, h2]
    exact ih

/-- C6 witness: two toggles of the registered patch `p` restore the
sample state exactly. -/
theorem toggle_patch_even_identity_witness :
    toggleN sPatch "p" 2 = some sPatch := by
  have h := toggle_patch_even_identity sPatch "p" 0 [1, 2] (by decide) 1
  simpa using h

/-- C7 amended: `add_patch` performs no duplicate-name check — even when
`patch_name` is already registered, it writes `instructions` at `address`
and replaces the registry entry with `(address, previously resident
bytes)`; other entries are untouched. -/
theorem add_patch_overwrites_duplicate (s : ProcState) (patch_name : String)
    (address : Nat) (instructions : List Nat) (e : Nat × List Nat)
    (_h : s.patches patch_name = some e) :
    (add_patch s patch_name address instructions).patches patch_name =
      some (address, readMem s.mem address instructions.length) ∧
    readMem (add_patch s patch_name address instructions).mem address
        instructions.length = instructions ∧
    ∀ n', n' ≠ patch_name →
      (add_patch s patch_name address instructions).patches n' = s.patches n' := by
  refine ⟨?_, ?_, ?_⟩
  · simp [add_patch, updateMap_same]
  · simp only [add_patch]
    exact readMem_writeMem_eq _ _ _
  · intro n' hn'
    simp [add_patch, updateMap_ne _ _ _ _ hn']

/-- C7 witness: the amended behaviour at the sample state whose registry
already holds `p`. -/
theorem add_patch_overwrites_duplicate_witness :
    (add_patch sPatch5 "p" 0 [9]).patches "p" =
      some (0, readMem sPatch5.mem 0 ([9] : List Nat).length) ∧
    readMem (add_patch sPatch5 "p" 0 [9]).mem 0 ([9] : List Nat).length = [9] := by
  have h := add_patch_overwrites_duplicate sPatch5 "p" 0 [9] (5, [7]) (by decide)
  exact ⟨h.1, h.2.1⟩

/-- C8 amended: the region scanner surfaces no query failure at all — a
failure of the very first query silently yields the empty sequence, and a
failure after a region has been yielded silently ends the sequence with
that region as its last element. -/
theorem regions_query_failure_silent :
    (∀ (query : Nat → Option MEMORY_BASIC_INFORMATION)
        (min_address max_address : Nat) (state protect m_type : Option Nat)
        (fuel : Nat),
        query min_address = none →
        yield_memory_regions query min_address max_address state protect m_type
          fuel = []) ∧
    (∀ (query : Nat → Option MEMORY_BASIC_INFORMATION) (max_address : Nat)
        (state protect m_type : Option Nat) (r : MEMORY_BASIC_INFORMATION)
        (fuel : Nat),
        r.BaseAddress + r.RegionSize ≤ max_address →
        query (r.BaseAddress + r.RegionSize) = none →
        regionsLoop query max_address state protect m_type (some r) (fuel + 1) =
          if regionMatches state protect m_type r then [r] else []) := by
  constructor
  · intro query minA maxA st pr ty fuel h
    cases fuel <;> simp [yield_memory_regions, h, regionsLoop]
  · intro query maxA st pr ty r fuel hle hq
    have hgt : ¬ (maxA < r.BaseAddress + r.RegionSize) := by omega
    simp [regionsLoop, hgt, hq]

/-- C8 witness: the amended behaviour at concrete oracles — an
always-failing query yields nothing, and a query failing right after the
sample region ends the walk with just that region. -/
theorem regions_query_failure_silent_witness :
    yield_memory_regions (fun _ => none) 0 10 none none none 5 = [] ∧
    regionsLoop (fun _ => none) 10 none none none (some regionEx) 5 = [regionEx] := by
  constructor
  · exact regions_query_failure_silent.1 (fun _ => none) 0 10 none none none 5 rfl
  · have h := regions_query_failure_silent.2 (fun _ => none) 10 none none none
      regionEx 4 (by decide) rfl
    simpa [regionMatches, truthy] using h

/-- C9 amended: `read` never returns fewer bytes than requested — on API
failure it returns `None` rather than partial data, and on success it
returns a buffer of exactly the requested length, the unread tail being
the buffer's zero initialisation (the `bytes_read` count is discarded). -/
theorem read_returns_full_or_none :
    (∀ (osBytes : List Nat) (n_bytes : Nat),
        proc_read false osBytes n_bytes = none) ∧
    (∀ (success : Bool) (osBytes : List Nat) (n_bytes : Nat) (b : List Nat),
        proc_read success osBytes n_bytes = some b → b.length = n_bytes) := by
  constructor
  · intro os n
    simp [proc_read, ReadProcessMemory]
  · intro success os n b h
    cases success with
    | false => simp [proc_read, ReadProcessMemory] at h
    | true =>
      simp only [proc_read, ReadProcessMemory, if_true, Option.some.injEq] at h
      rw [← h]
      simp only [List.length_append, List.length_take, List.length_replicate]
      omega

/-- C9 witness: the amended behaviour at concrete inputs — a failed read
returns `None`, and a 4-byte request over a 2-byte OS copy returns a
buffer of length 4. -/
theorem read_returns_full_or_none_witness :
    proc_read false [1, 2] 3 = none ∧
    ([0xAA, 0xBB, 0, 0] : List Nat).length = 4 := by
  refine ⟨read_returns_full_or_none.1 [1, 2] 3,
    read_returns_full_or_none.2 true [0xAA, 0xBB] 4 [0xAA, 0xBB, 0, 0] (by decide)⟩

/-- C10 amended: when the initial snapshot query fails, each enumeration
generator yields exactly one element — the failure sentinel `None` — and
then raises when consumed further (the sentinel is handed to the
`...32Next` call, which rejects it), rather than ending the sequence
cleanly or producing an empty one. -/
theorem snapshot_first_failure_trace :
    (∀ (entry : THREADENTRY32) (steps : List (Option THREADENTRY32)),
        yield_threads false entry steps = ([none], true)) ∧
    (∀ (entry : PROCESSENTRY32) (steps : List (Option PROCESSENTRY32)),
        yield_processes false entry steps = ([none], true)) ∧
    (∀ (entry : MODULEENTRY32) (steps : List (Option MODULEENTRY32)),
        yield_modules false entry steps = ([none], true)) := by
  refine ⟨?_, ?_, ?_⟩ <;>
    · intro entry steps
      cases steps <;>
        simp [yield_threads, yield_processes, yield_modules, snapshotTrace,
          snapFirst, snapLoop, snapNext]

/-- C10 counterexample: when the initial snapshot query fails, each
generator yields the sentinel `None` and then raises (second component
`true`) when consumed further, instead of ending the sequence. -/
theorem first_failure_yields_then_raises_cex :
    yield_threads false ⟨0, 0⟩ [] = ([none], true) ∧
    yield_processes false ⟨0, ""⟩ [] = ([none], true) ∧
    yield_modules false ⟨"", 0, 0⟩ [] = ([none], true) :=
  ⟨rfl, rfl, rfl⟩

end BadTooth
